import Mathlib

/-!
Shallow embedding of the notification-hub core (idempotent ingestion,
write-first dispatch, retry scheduler, cursor query layer) and proofs of
the specification claims about it.

Sources embedded:
- `src/app/api/notifications/route.ts` (POST ingest, idempotency transaction,
  GET list query),
- `src/lib/ntfy.ts` (`sendNtfyPush`, `getNtfyTopic`),
- `src/lib/validators/notification.ts` (`listNotificationsSchema`),
- `src/app/api/notifications/stream/route.ts` (`fetchNewNotifications`),
- the retry cron route (`GET /api/cron/retry`).

Timestamps are modelled as `Int` milliseconds since the epoch (JS `Date`
comparisons are numeric).  Database tables are lists of rows; Prisma
operations become explicit list transformations.  The network is an oracle
(`NetOutcome`): the push primitive's result is a pure function of it.
-/

namespace NotificationHub

/-- Prisma enum `DeliveryStatus`. -/
inductive DeliveryStatus where
  | PENDING
  | DELIVERED
  | FAILED
  | SKIPPED
deriving DecidableEq, Repr

/-- Row of the `channels` table. -/
structure Channel where
  id : String
  name : String
  ntfyTopic : Option String
deriving DecidableEq, Repr

/-- Row of the `notifications` table.  `updatedAt` is maintained by Prisma's
`@updatedAt` on every update. -/
structure Notification where
  id : String
  title : String
  message : String
  markdown : Bool
  source : String
  channelId : String
  category : Option String
  tags : List String
  priority : Nat
  clickUrl : Option String
  metadata : Option String
  deliveryStatus : DeliveryStatus
  deliveredAt : Option Int
  deliveryError : Option String
  retryCount : Nat
  readAt : Option Int
  apiKeyId : String
  createdAt : Int
  updatedAt : Int
deriving DecidableEq, Repr

/-- Row of the `idempotency_records` table; `(apiKeyId, idempotencyKey)` is
unique, `notificationId` links 1:1 to the guarded notification. -/
structure IdempotencyRecord where
  id : String
  apiKeyId : String
  idempotencyKey : String
  notificationId : String
  expiresAt : Int
  createdAt : Int
deriving DecidableEq, Repr

/-- The relational store. -/
structure Db where
  notifications : List Notification
  idempotencyRecords : List IdempotencyRecord
  channels : List Channel
deriving DecidableEq, Repr

/-! ### Push primitive (`src/lib/ntfy.ts`) -/

/-- Result type of `sendNtfyPush`. -/
structure NtfyResult where
  success : Bool
  error : Option String
  isTimeout : Bool
deriving DecidableEq, Repr

/-- Outcome of the underlying `fetch` to the ntfy gateway; this is the
environment oracle the push primitive reacts to. -/
inductive NetOutcome where
  | ok
  | httpError (status : Nat) (text : String)
  | abortTimeout
  | otherError (msg : String)
deriving DecidableEq, Repr

/-- Embedding of `sendNtfyPush`: maps the fetch outcome to the result record.
A non-ok HTTP response, an abort (timeout) and any other thrown error all
return `success := false` with an error text; the timeout case additionally
sets `isTimeout`.  The function never throws. -/
def sendNtfyPush (topic : String) (timeoutMs : Nat) (net : NetOutcome) : NtfyResult :=
  match net with
  | NetOutcome.ok =>
      { success := true, error := none, isTimeout := false }
  | NetOutcome.httpError status text =>
      { success := false
        error := some ("ntfy returned " ++ toString status ++ ": " ++ text ++ " [" ++ topic ++ "]")
        isTimeout := false }
  | NetOutcome.abortTimeout =>
      { success := false
        error := some ("ntfy request timed out after " ++ toString timeoutMs ++ "ms")
        isTimeout := true }
  | NetOutcome.otherError msg =>
      { success := false, error := some msg, isTimeout := false }

/-- Embedding of `getNtfyTopic`: channel override, else the process default. -/
def getNtfyTopic (channelTopic : Option String) (defaultTopic : String) : String :=
  match channelTopic with
  | some t => t
  | none => defaultTopic

/-! ### Idempotency guard (`createNotificationWithIdempotency`) -/

/-- Lookup `idempotencyRecord.findUnique` on the compound key. -/
def findIdemRecord (db : Db) (apiKeyId idempotencyKey : String) : Option IdempotencyRecord :=
  db.idempotencyRecords.find? fun r =>
    r.apiKeyId == apiKeyId && r.idempotencyKey == idempotencyKey

/-- Lookup a notification row by id (the `include: notification` join). -/
def findNotif (db : Db) (nid : String) : Option Notification :=
  db.notifications.find? fun n => n.id == nid

/-- Validated body of `POST /api/notifications` after `createNotificationSchema`. -/
structure CreateInput where
  title : String
  message : String
  markdown : Bool
  source : Option String
  channel : String
  category : Option String
  tags : List String
  priority : Nat
  clickUrl : Option String
  metadata : Option String
  idempotencyKey : Option String
  skipPush : Bool
deriving DecidableEq, Repr

/-- The `data` object the POST handler passes to creation: content from the
input, `source` defaulting to the API key name, delivery status `SKIPPED`
when the caller opts out of push and `PENDING` otherwise, delivery fields
at their column defaults.  `freshId`/`now` stand for the store-generated
id and `now()` default. -/
def notificationData (input : CreateInput) (apiKeyId apiKeyName : String)
    (channel : Channel) (freshId : String) (now : Int) : Notification :=
  { id := freshId
    title := input.title
    message := input.message
    markdown := input.markdown
    source := input.source.getD apiKeyName
    channelId := channel.id
    category := input.category
    tags := input.tags
    priority := input.priority
    clickUrl := input.clickUrl
    metadata := input.metadata
    deliveryStatus := if input.skipPush then DeliveryStatus.SKIPPED else DeliveryStatus.PENDING
    deliveredAt := none
    deliveryError := none
    retryCount := 0
    readAt := none
    apiKeyId := apiKeyId
    createdAt := now
    updatedAt := now }

/-- Result of the idempotency transaction. -/
structure IdemOutcome where
  db : Db
  notification : Notification
  isReplay : Bool
deriving DecidableEq, Repr

/-- Create the notification row together with its idempotency record
(the two `tx.create` calls of the transaction body). -/
def insertWithRecord (db : Db) (apiKeyId idempotencyKey : String)
    (data : Notification) (freshRecordId : String) (now expiresAt : Int) : IdemOutcome :=
  { db := { db with
      notifications := db.notifications ++ [data]
      idempotencyRecords := db.idempotencyRecords ++
        [{ id := freshRecordId
           apiKeyId := apiKeyId
           idempotencyKey := idempotencyKey
           notificationId := data.id
           expiresAt := expiresAt
           createdAt := now }] }
    notification := data
    isReplay := false }

/-- Embedding of the transaction body of `createNotificationWithIdempotency`:
look up the record for `(apiKeyId, idempotencyKey)`; if found and not
expired (`expiresAt >= now`) return its linked notification as a replay,
touching nothing; if found and expired delete it, then (in both remaining
cases) create the notification and a fresh record expiring at
`now + ttlHours` hours.  `none` models the impossible dangling join. -/
def createNotificationWithIdempotency (db : Db) (apiKeyId idempotencyKey : String)
    (data : Notification) (freshRecordId : String) (now ttlHours : Int) :
    Option IdemOutcome :=
  let expiresAt : Int := now + ttlHours * 60 * 60 * 1000
  match findIdemRecord db apiKeyId idempotencyKey with
  | some existing =>
      if now ≤ existing.expiresAt then
        match findNotif db existing.notificationId with
        | some n => some { db := db, notification := n, isReplay := true }
        | none => none
      else
        let db1 : Db := { db with
          idempotencyRecords := db.idempotencyRecords.filter fun r => !(r.id == existing.id) }
        some (insertWithRecord db1 apiKeyId idempotencyKey data freshRecordId now expiresAt)
  | none =>
      some (insertWithRecord db apiKeyId idempotencyKey data freshRecordId now expiresAt)

/-- Embedding of the `catch` branch for a `P2002` unique-constraint failure:
re-fetch the now-existing record outside the failed transaction and return
its notification as a replay; `none` models the rethrow when no record is
found. -/
def handleUniqueViolation (db : Db) (apiKeyId idempotencyKey : String) :
    Option (Notification × Bool) :=
  match findIdemRecord db apiKeyId idempotencyKey with
  | some existing =>
      match findNotif db existing.notificationId with
      | some n => some (n, true)
      | none => none
  | none => none

/-! ### POST handler tail (write-first dispatch) -/

/-- Outcome of the POST handler: the store afterwards, the HTTP status, the
response body and whether the push primitive was invoked. -/
structure PostResult where
  db : Db
  status : Nat
  body : Notification
  pushAttempted : Bool
deriving DecidableEq, Repr

/-- Prisma `notification.update({ where: { id } })`: rewrite the matching row. -/
def updateNotif (db : Db) (nid : String) (f : Notification → Notification) : Db :=
  { db with notifications := db.notifications.map fun n => if n.id == nid then f n else n }

/-- The update the POST handler applies after the push attempt: `DELIVERED`
with `deliveredAt = now` on success, `FAILED` with `deliveredAt = null` on
failure; `deliveryError` is set to the result's error text when present
(Prisma leaves the column unchanged when the field is `undefined`).
`@updatedAt` bumps `updatedAt`. -/
def applyDispatchResult (res : NtfyResult) (now : Int) (n : Notification) : Notification :=
  { n with
    deliveryStatus := if res.success then DeliveryStatus.DELIVERED else DeliveryStatus.FAILED
    deliveredAt := if res.success then some now else none
    deliveryError := match res.error with
      | some e => some e
      | none => n.deliveryError
    updatedAt := now }

/-- Tail of the POST handler after the notification exists: return `201`
immediately on `skipPush`, otherwise resolve the topic, invoke the push
primitive once, persist the outcome and return `201` with the updated row. -/
def ingestDispatch (db : Db) (n : Notification) (input : CreateInput) (nowUpd : Int)
    (net : NetOutcome) (timeoutMs : Nat) (channel : Channel) (defaultTopic : String) :
    PostResult :=
  if input.skipPush then
    { db := db, status := 201, body := n, pushAttempted := false }
  else
    let topic := getNtfyTopic channel.ntfyTopic defaultTopic
    let res := sendNtfyPush topic timeoutMs net
    { db := updateNotif db n.id (applyDispatchResult res nowUpd)
      status := 201
      body := applyDispatchResult res nowUpd n
      pushAttempted := true }

/-- Embedding of `POST /api/notifications` from the point where auth, rate
limiting, validation and channel lookup have succeeded: run the idempotency
guard when a key is supplied (replays return `200` untouched and skip
dispatch), otherwise create directly; then the write-first dispatch tail. -/
def ingestPost (db : Db) (apiKeyId apiKeyName : String) (channel : Channel)
    (input : CreateInput) (freshNotifId freshRecordId : String)
    (nowTx nowUpd ttlHours : Int) (net : NetOutcome) (timeoutMs : Nat)
    (defaultTopic : String) : Option PostResult :=
  let data := notificationData input apiKeyId apiKeyName channel freshNotifId nowTx
  match input.idempotencyKey with
  | some key =>
      match createNotificationWithIdempotency db apiKeyId key data freshRecordId nowTx ttlHours with
      | none => none
      | some out =>
          if out.isReplay then
            some { db := out.db, status := 200, body := out.notification, pushAttempted := false }
          else
            some (ingestDispatch out.db out.notification input nowUpd net timeoutMs channel defaultTopic)
  | none =>
      let db1 : Db := { db with notifications := db.notifications ++ [data] }
      some (ingestDispatch db1 data input nowUpd net timeoutMs channel defaultTopic)

/-! ### Lexicographic string order

Store id columns are compared lexicographically (`id > cursorId`,
`ORDER BY id ASC`).  The comparison is embedded as an executable
lexicographic order on the character data, with the order properties the
query theorems need. -/

/-- Strict lexicographic order on character lists. -/
def charListLtB : List Char → List Char → Bool
  | [], [] => false
  | [], _ :: _ => true
  | _ :: _, [] => false
  | a :: as, b :: bs =>
      if a < b then true
      else if b < a then false
      else charListLtB as bs

/-- Strict lexicographic order on strings. -/
def strLt (a b : String) : Bool := charListLtB a.data b.data

/-- Reflexive closure of `strLt`. -/
def strLe (a b : String) : Bool := strLt a b || a == b

theorem charListLtB_irrefl (as : List Char) : charListLtB as as = false := by
  induction as with
  | nil => rfl
  | cons a as ih => simp [charListLtB, lt_irrefl, ih]

theorem charListLtB_trans (as bs cs : List Char)
    (h1 : charListLtB as bs = true) (h2 : charListLtB bs cs = true) :
    charListLtB as cs = true := by
  induction as generalizing bs cs with
  | nil =>
      cases bs with
      | nil => simp [charListLtB] at h1
      | cons b bs' =>
          cases cs with
          | nil => simp [charListLtB] at h2
          | cons c cs' => simp [charListLtB]
  | cons a as' ih =>
      cases bs with
      | nil => simp [charListLtB] at h1
      | cons b bs' =>
          cases cs with
          | nil => simp [charListLtB] at h2
          | cons c cs' =>
              simp only [charListLtB] at h1 h2 ⊢
              rcases lt_trichotomy a b with hab | rfl | hab
              · rcases lt_trichotomy b c with hbc | rfl | hbc
                · simp [lt_trans hab hbc]
                · simp [hab]
                · rw [if_neg (lt_asymm hbc), if_pos hbc] at h2
                  exact absurd h2 (by simp)
              · rcases lt_trichotomy a c with hac | rfl | hac
                · simp [hac]
                · rw [if_neg (lt_irrefl a), if_neg (lt_irrefl a)] at h1 h2 ⊢
                  exact ih _ _ h1 h2
                · rw [if_neg (lt_asymm hac), if_pos hac] at h2
                  exact absurd h2 (by simp)
              · rw [if_neg (lt_asymm hab), if_pos hab] at h1
                exact absurd h1 (by simp)

theorem charListLtB_trichotomy (as bs : List Char) :
    charListLtB as bs = true ∨ as = bs ∨ charListLtB bs as = true := by
  induction as generalizing bs with
  | nil =>
      cases bs with
      | nil => right; left; rfl
      | cons b bs' => left; rfl
  | cons a as' ih =>
      cases bs with
      | nil => right; right; rfl
      | cons b bs' =>
          rcases lt_trichotomy a b with hab | rfl | hab
          · left; simp [charListLtB, hab]
          · rcases ih bs' with h | h | h
            · left; simp [charListLtB, lt_self_iff_false, h]
            · right; left; rw [h]
            · right; right; simp [charListLtB, lt_self_iff_false, h]
          · right; right; simp [charListLtB, hab]

theorem strLt_trans (a b c : String) (h1 : strLt a b = true) (h2 : strLt b c = true) :
    strLt a c = true :=
  charListLtB_trans a.data b.data c.data h1 h2

theorem strLt_irrefl (a : String) : strLt a a = false :=
  charListLtB_irrefl a.data

theorem strLt_trichotomy (a b : String) :
    strLt a b = true ∨ a = b ∨ strLt b a = true := by
  rcases charListLtB_trichotomy a.data b.data with h | h | h
  · exact Or.inl h
  · exact Or.inr (Or.inl (String.ext h))
  · exact Or.inr (Or.inr h)

theorem strLt_asymm (a b : String) (h : strLt a b = true) : strLt b a = false := by
  by_contra hc
  have hba : strLt b a = true := by
    cases hx : strLt b a
    · exact absurd hx hc
    · rfl
  have := strLt_trans a b a h hba
  rw [strLt_irrefl] at this
  exact Bool.false_ne_true this

theorem strLe_total (a b : String) : strLe a b || strLe b a := by
  rcases strLt_trichotomy a b with h | h | h
  · simp [strLe, h]
  · subst h; simp [strLe]
  · simp [strLe, h]

theorem strLe_trans (a b c : String) (h1 : strLe a b = true) (h2 : strLe b c = true) :
    strLe a c = true := by
  simp only [strLe, Bool.or_eq_true, beq_iff_eq] at h1 h2 ⊢
  rcases h1 with h1 | rfl
  · rcases h2 with h2 | rfl
    · exact Or.inl (strLt_trans a b c h1 h2)
    · exact Or.inl h1
  · exact h2

/-! ### Ordered queries

The store's `ORDER BY` is modelled by an insertion sort over a boolean
comparison; its membership, length and sortedness lemmas are proved below
so that query theorems do not depend on implementation details. -/

/-- Insert `a` in front of the first element it compares below. -/
def insertBy (le : α → α → Bool) (a : α) : List α → List α
  | [] => [a]
  | b :: bs => if le a b then a :: b :: bs else b :: insertBy le a bs

/-- Insertion sort by a boolean comparison; models `ORDER BY`. -/
def sortBy (le : α → α → Bool) : List α → List α
  | [] => []
  | a :: as => insertBy le a (sortBy le as)

theorem mem_insertBy (le : α → α → Bool) (a : α) (l : List α) (x : α) :
    x ∈ insertBy le a l ↔ x = a ∨ x ∈ l := by
  induction l with
  | nil => simp [insertBy]
  | cons b bs ih =>
      by_cases h : le a b = true
      · simp [insertBy, h]
      · simp only [insertBy, if_neg h, List.mem_cons, ih]
        tauto

theorem mem_sortBy (le : α → α → Bool) (l : List α) (x : α) :
    x ∈ sortBy le l ↔ x ∈ l := by
  induction l with
  | nil => simp [sortBy]
  | cons a as ih => simp [sortBy, mem_insertBy, ih]

theorem length_insertBy (le : α → α → Bool) (a : α) (l : List α) :
    (insertBy le a l).length = l.length + 1 := by
  induction l with
  | nil => simp [insertBy]
  | cons b bs ih =>
      by_cases h : le a b = true
      · simp [insertBy, h]
      · simp [insertBy, h, ih]

theorem length_sortBy (le : α → α → Bool) (l : List α) :
    (sortBy le l).length = l.length := by
  induction l with
  | nil => simp [sortBy]
  | cons a as ih => simp [sortBy, length_insertBy, ih]

theorem pairwise_insertBy (le : α → α → Bool)
    (total : ∀ a b, le a b || le b a)
    (trans : ∀ a b c, le a b = true → le b c = true → le a c = true)
    (a : α) (l : List α) (h : l.Pairwise fun x y => le x y = true) :
    (insertBy le a l).Pairwise fun x y => le x y = true := by
  induction l with
  | nil => simp [insertBy]
  | cons b bs ih =>
      rcases List.pairwise_cons.mp h with ⟨hb, hbs⟩
      by_cases hab : le a b = true
      · rw [insertBy, if_pos hab]
        refine List.pairwise_cons.mpr ⟨?_, h⟩
        intro x hx
        rcases List.mem_cons.mp hx with rfl | hx
        · exact hab
        · exact trans a b x hab (hb x hx)
      · have hba : le b a = true := by
          rcases Bool.or_eq_true _ _ |>.mp (total a b) with h1 | h1
          · exact absurd h1 hab
          · exact h1
        rw [insertBy, if_neg hab]
        refine List.pairwise_cons.mpr ⟨?_, ih hbs⟩
        intro x hx
        rcases (mem_insertBy le a bs x).mp hx with rfl | hx
        · exact hba
        · exact hb x hx

theorem pairwise_sortBy (le : α → α → Bool)
    (total : ∀ a b, le a b || le b a)
    (trans : ∀ a b c, le a b = true → le b c = true → le a c = true)
    (l : List α) :
    (sortBy le l).Pairwise fun x y => le x y = true := by
  induction l with
  | nil => simp [sortBy]
  | cons a as ih => exact pairwise_insertBy le total trans a (sortBy le as) ih

/-! ### List query layer (`listNotificationsSchema` and the GET handler) -/

/-- Sortable fields accepted by `listNotificationsSchema`. -/
inductive SortField where
  | createdAt
  | priority
deriving DecidableEq, Repr

/-- Sort directions accepted by `listNotificationsSchema`. -/
inductive SortOrder where
  | asc
  | desc
deriving DecidableEq, Repr

/-- The raw query string of `GET /api/notifications`, already coerced to
typed values where zod would coerce.  The `cursor` field stands for a
`cursor` query parameter a caller may supply: it is not declared in
`listNotificationsSchema`, and zod object schemas strip undeclared keys. -/
structure RawListQuery where
  page : Option Nat
  limit : Option Nat
  since : Option Int
  channel : Option String
  source : Option String
  category : Option String
  minPriority : Option Nat
  tags : Option String
  deliveryStatus : Option DeliveryStatus
  unreadOnly : Option String
  sort : Option SortField
  order : Option SortOrder
  cursor : Option (Int × String)
deriving DecidableEq, Repr

/-- Output of `listNotificationsSchema.safeParse`: valid fields with their
zod defaults applied (`page=1`, `limit=50`, `unreadOnly="false"`,
`sort=createdAt`, `order=desc`; `tags` split on commas with empty pieces
dropped).  No `cursor` field exists: an undeclared key is stripped. -/
structure ListQuery where
  page : Nat
  limit : Nat
  since : Option Int
  channel : Option String
  source : Option String
  category : Option String
  minPriority : Option Nat
  tags : Option (List String)
  deliveryStatus : Option DeliveryStatus
  unreadOnly : Bool
  sort : SortField
  order : SortOrder
deriving DecidableEq, Repr

/-- Embedding of `listNotificationsSchema` on an in-range query: defaults
applied, `tags` comma-split, the undeclared `cursor` key dropped. -/
def parseListQuery (raw : RawListQuery) : ListQuery :=
  { page := raw.page.getD 1
    limit := raw.limit.getD 50
    since := raw.since
    channel := raw.channel
    source := raw.source
    category := raw.category
    minPriority := raw.minPriority
    tags := raw.tags.map fun s => (s.splitOn ",").filter fun t => !t.isEmpty
    deliveryStatus := raw.deliveryStatus
    unreadOnly := raw.unreadOnly.getD "false" == "true"
    sort := raw.sort.getD SortField.createdAt
    order := raw.order.getD SortOrder.desc }

/-- The `where` clause the GET handler builds: every supplied filter becomes
a conjunct (`tags` with `hasEvery`, `minPriority` with `gte`, `unreadOnly`
as `readAt = null`, `since` as `createdAt > since`). -/
def listWhere (q : ListQuery) (channelId : Option String) (n : Notification) : Bool :=
  (match channelId with | some cid => n.channelId == cid | none => true)
  && (match q.source with | some s => n.source == s | none => true)
  && (match q.category with | some c => n.category == some c | none => true)
  && (match q.tags with
      | some ts => if ts.length > 0 then ts.all fun t => n.tags.contains t else true
      | none => true)
  && (match q.deliveryStatus with | some s => n.deliveryStatus == s | none => true)
  && (match q.minPriority with | some p => decide (p ≤ n.priority) | none => true)
  && (!q.unreadOnly || n.readAt == none)
  && (match q.since with | some s => decide (s < n.createdAt) | none => true)

/-- The single-field `orderBy` the GET handler builds from `sort`/`order`. -/
def listOrder (q : ListQuery) (a b : Notification) : Bool :=
  let key : Notification → Int := fun n =>
    match q.sort with
    | SortField.createdAt => n.createdAt
    | SortField.priority => (n.priority : Int)
  match q.order with
  | SortOrder.asc => decide (key a ≤ key b)
  | SortOrder.desc => decide (key b ≤ key a)

/-- Offset pagination of the GET handler: `skip = (page-1)*limit`, `take = limit`
over the filtered, ordered rows. -/
def runListQuery (db : Db) (q : ListQuery) (channelId : Option String) : List Notification :=
  ((sortBy (listOrder q) (db.notifications.filter (listWhere q channelId))).drop
    ((q.page - 1) * q.limit)).take q.limit

/-- Embedding of `GET /api/notifications` after auth: parse the query
(stripping any `cursor`), resolve the channel name when given (`none`
models the 400 response for an unknown channel), and run the paged query. -/
def listNotificationsGet (db : Db) (raw : RawListQuery) : Option (List Notification) :=
  let q := parseListQuery raw
  match q.channel with
  | some name =>
      match db.channels.find? (fun c => c.name == name) with
      | none => none
      | some ch => some (runListQuery db q (some ch.id))
  | none => some (runListQuery db q none)

/-! ### Stream resume query (`fetchNewNotifications`) -/

/-- Compound-cursor resume condition of the stream poll query:
`createdAt > afterTs OR (createdAt = afterTs AND id > afterId)`. -/
def cursorMatches (afterTs : Int) (afterId : String) (n : Notification) : Bool :=
  decide (afterTs < n.createdAt)
  || (decide (n.createdAt = afterTs) && strLt afterId n.id)

/-- Full `where` clause of `fetchNewNotifications`: the resume condition plus
the connection's optional channel and minimum-priority filters. -/
def streamMatches (afterTs : Int) (afterId : String) (channelId : Option String)
    (minPriority : Option Nat) (n : Notification) : Bool :=
  cursorMatches afterTs afterId n
  && (match channelId with | some cid => n.channelId == cid | none => true)
  && (match minPriority with | some p => decide (p ≤ n.priority) | none => true)

/-- The `orderBy: [{ createdAt: "asc" }, { id: "asc" }]` comparison. -/
def streamOrder (a b : Notification) : Bool :=
  decide (a.createdAt < b.createdAt)
  || (decide (a.createdAt = b.createdAt) && strLe a.id b.id)

/-- Per-poll row cap of the stream query (`take: 100`). -/
def FETCH_BATCH_LIMIT : Nat := 100

/-- Embedding of `fetchNewNotifications`: filter by the resume condition and
connection filters, order ascending by `(createdAt, id)`, cap at 100 rows. -/
def fetchNewNotifications (state : List Notification) (afterTs : Int) (afterId : String)
    (channelId : Option String) (minPriority : Option Nat) : List Notification :=
  ((sortBy streamOrder
    (state.filter (streamMatches afterTs afterId channelId minPriority))).take
    FETCH_BATCH_LIMIT)

/-! ### Retry scheduler (`GET /api/cron/retry`) -/

/-- Notifications older than this are no longer retried (24 hours). -/
def MAX_RETRY_AGE_MS : Int := 24 * 60 * 60 * 1000

/-- Candidates retried per cron run. -/
def RETRY_BATCH_SIZE : Nat := 20

/-- Counters returned by the retry cron. -/
structure RetryResult where
  attempted : Nat
  succeeded : Nat
  failed : Nat
  gaveUp : Nat
deriving DecidableEq, Repr

/-- Selection predicate of the candidate `findMany`: failed, retries left,
created after the 24-hour cutoff. -/
def failedEligible (maxAttempts : Nat) (cutoff : Int) (n : Notification) : Bool :=
  n.deliveryStatus == DeliveryStatus.FAILED
  && decide (n.retryCount < maxAttempts)
  && decide (cutoff < n.createdAt)

/-- The candidate ordering `orderBy: { createdAt: "asc" }`. -/
def createdAtLe (a b : Notification) : Bool :=
  decide (a.createdAt ≤ b.createdAt)

/-- Embedding of the candidate `findMany`: filter, order oldest-first, take
the batch. -/
def retryCandidates (state : List Notification) (now : Int) (maxAttempts : Nat) :
    List Notification :=
  ((sortBy createdAtLe
    (state.filter (failedEligible maxAttempts (now - MAX_RETRY_AGE_MS)))).take
    RETRY_BATCH_SIZE)

/-- Error text written by the give-up `updateMany`. -/
def terminalRetryError : String := "Max retry attempts exceeded or notification too old"

/-- Predicate of the give-up `updateMany`: failed and (retries exhausted or
created before the 24-hour cutoff). -/
def giveUpMatches (maxAttempts : Nat) (cutoff : Int) (n : Notification) : Bool :=
  n.deliveryStatus == DeliveryStatus.FAILED
  && (decide (maxAttempts ≤ n.retryCount) || decide (n.createdAt < cutoff))

/-- Embedding of the give-up `updateMany`: set `deliveryError` on every
matching row (status untouched, `@updatedAt` bumped) and return the state
with the matched-row count. -/
def markGiveUps (state : List Notification) (now : Int) (maxAttempts : Nat) :
    List Notification × Nat :=
  let cutoff := now - MAX_RETRY_AGE_MS
  (state.map fun n =>
      if giveUpMatches maxAttempts cutoff n then
        { n with deliveryError := some terminalRetryError, updatedAt := now }
      else n,
   (state.filter (giveUpMatches maxAttempts cutoff)).length)

/-- Exponential backoff window in milliseconds: `2^retryCount` minutes. -/
def backoffMs (retryCount : Nat) : Int :=
  ((2 ^ retryCount * 60 * 1000 : Nat) : Int)

/-- Accumulator of the retry loop: the evolving store plus the run counters
and the ids whose push primitive was actually invoked. -/
structure RetryRun where
  state : List Notification
  attempted : Nat
  succeeded : Nat
  failed : Nat
  pushed : List String
deriving DecidableEq, Repr

/-- One iteration of the retry loop over candidate `c` (snapshot fields come
from the candidate query, as in the source): skip untouched when
`now - updatedAt < backoff`; otherwise invoke the push primitive once and
persist either the delivered transition or the failure bump, incrementing
`retryCount` from the snapshot in both cases. -/
def retryStep (net : String → NetOutcome) (timeoutMs : Nat) (now : Int)
    (chTopic : String → Option String) (defaultTopic : String)
    (acc : RetryRun) (c : Notification) : RetryRun :=
  if now - c.updatedAt < backoffMs c.retryCount then acc
  else
    let topic := getNtfyTopic (chTopic c.channelId) defaultTopic
    let res := sendNtfyPush topic timeoutMs (net c.id)
    if res.success then
      { acc with
        state := acc.state.map fun x =>
          if x.id == c.id then
            { x with
              deliveryStatus := DeliveryStatus.DELIVERED
              deliveredAt := some now
              deliveryError := none
              retryCount := c.retryCount + 1
              updatedAt := now }
          else x
        attempted := acc.attempted + 1
        succeeded := acc.succeeded + 1
        pushed := acc.pushed ++ [c.id] }
    else
      { acc with
        state := acc.state.map fun x =>
          if x.id == c.id then
            { x with
              retryCount := c.retryCount + 1
              deliveryError := some (res.error.getD "Unknown error")
              updatedAt := now }
          else x
        attempted := acc.attempted + 1
        failed := acc.failed + 1
        pushed := acc.pushed ++ [c.id] }

/-- Outcome of one retry cron run. -/
structure CronOutcome where
  state : List Notification
  result : RetryResult
  pushed : List String
deriving DecidableEq, Repr

/-- Embedding of the retry cron run: select candidates from the incoming
state, mark give-ups, then process the candidates in order. -/
def runRetryCron (state : List Notification) (now : Int) (maxAttempts : Nat)
    (net : String → NetOutcome) (timeoutMs : Nat) (chTopic : String → Option String)
    (defaultTopic : String) : CronOutcome :=
  let candidates := retryCandidates state now maxAttempts
  let marked := markGiveUps state now maxAttempts
  let run := candidates.foldl (retryStep net timeoutMs now chTopic defaultTopic)
    { state := marked.1, attempted := 0, succeeded := 0, failed := 0, pushed := [] }
  { state := run.state
    result :=
      { attempted := run.attempted
        succeeded := run.succeeded
        failed := run.failed
        gaveUp := marked.2 }
    pushed := run.pushed }

/-- Invariant of claim C8 as a decidable check: `deliveredAt` is set exactly
when the delivery status is `DELIVERED`. -/
def deliveredIffDelivered (n : Notification) : Bool :=
  n.deliveredAt.isSome == (n.deliveryStatus == DeliveryStatus.DELIVERED)


/-! ## Concrete fixtures

Small concrete rows used by the witness theorems. -/

/-- Fixture notification row guarded by the fixture record. -/
def exN1 : Notification :=
  { id := "n1", title := "t", message := "m", markdown := false, source := "s"
    channelId := "c1", category := none, tags := [], priority := 3, clickUrl := none
    metadata := none, deliveryStatus := DeliveryStatus.PENDING, deliveredAt := none
    deliveryError := none, retryCount := 0, readAt := none, apiKeyId := "k1"
    createdAt := 10, updatedAt := 10 }

/-- Fixture channel. -/
def exCh : Channel := { id := "c1", name := "default", ntfyTopic := none }

/-- Fixture idempotency record for `("k1", "key")` expiring at `1000`. -/
def exRec : IdempotencyRecord :=
  { id := "r1", apiKeyId := "k1", idempotencyKey := "key", notificationId := "n1"
    expiresAt := 1000, createdAt := 10 }

/-- Fixture store holding the three fixture rows. -/
def exDb : Db := { notifications := [exN1], idempotencyRecords := [exRec], channels := [exCh] }

/-- Fixture create request carrying the fixture idempotency key. -/
def exInput : CreateInput :=
  { title := "t2", message := "m2", markdown := false, source := none, channel := "default"
    category := none, tags := [], priority := 3, clickUrl := none, metadata := none
    idempotencyKey := some "key", skipPush := false }

/-! ## Claim theorems -/

/-- C1: when the supplied idempotency key has a non-expired record, `Ingest`
returns that record's linked notification as a `200` replay, leaves the
whole store byte-for-byte unchanged (no new notification row, no new
idempotency record, no row mutated) and never invokes the push primitive. -/
theorem replay_returns_existing_without_writes
    (db : Db) (apiKeyId apiKeyName : String) (channel : Channel) (input : CreateInput)
    (freshNotifId freshRecordId : String) (nowTx nowUpd ttlHours : Int)
    (net : NetOutcome) (timeoutMs : Nat) (defaultTopic : String)
    (key : String) (r : IdempotencyRecord) (n : Notification)
    (hkey : input.idempotencyKey = some key)
    (hrec : findIdemRecord db apiKeyId key = some r)
    (hlive : nowTx ≤ r.expiresAt)
    (hlink : findNotif db r.notificationId = some n) :
    ingestPost db apiKeyId apiKeyName channel input freshNotifId freshRecordId
      nowTx nowUpd ttlHours net timeoutMs defaultTopic =
      some { db := db, status := 200, body := n, pushAttempted := false } := by
  simp only [ingestPost, createNotificationWithIdempotency, hkey, hrec, hlink,
    if_pos hlive, ite_true]

/-- C1 witness: the replay theorem applied to the fixture store with a live
record at time `500 ≤ 1000`. -/
theorem replay_returns_existing_without_writes_witness :
    ingestPost exDb "k1" "keyname" exCh exInput "n2" "r2" 500 600 24
      NetOutcome.ok 2000 "topic" =
      some { db := exDb, status := 200, body := exN1, pushAttempted := false } :=
  replay_returns_existing_without_writes exDb "k1" "keyname" exCh exInput "n2" "r2"
    500 600 24 NetOutcome.ok 2000 "topic" "key" exRec exN1
    rfl (by decide) (by decide) (by decide)

/-- C2: when the idempotency transaction fails on the unique constraint and
the winning record exists at re-fetch time, the fallback returns the
winner's linked notification as a replay (`isReplay = true`) instead of
surfacing the conflict as an error. -/
theorem conflict_fallback_returns_winner
    (db : Db) (apiKeyId idemKey : String) (r : IdempotencyRecord) (n : Notification)
    (hrec : findIdemRecord db apiKeyId idemKey = some r)
    (hlink : findNotif db r.notificationId = some n) :
    handleUniqueViolation db apiKeyId idemKey = some (n, true) := by
  simp only [handleUniqueViolation, hrec, hlink]

/-- C2 witness: the conflict fallback applied to the fixture store where the
race winner's record exists. -/
theorem conflict_fallback_returns_winner_witness :
    handleUniqueViolation exDb "k1" "key" = some (exN1, true) :=
  conflict_fallback_returns_winner exDb "k1" "key" exRec exN1 (by decide) (by decide)

/-- C9: with an expired record present, the idempotency transaction deletes
the expired record, appends a fresh notification and a fresh record linking
to it (expiring a TTL after now), returns `isReplay = false`, and the new
notification's id differs from the one the expired record guarded; every
pre-existing notification row is carried over unchanged. -/
theorem expired_record_replaced_with_fresh_notification
    (db : Db) (apiKeyId key : String) (data : Notification) (freshRecordId : String)
    (nowTx ttlHours : Int) (r : IdempotencyRecord) (old : Notification)
    (hrec : findIdemRecord db apiKeyId key = some r)
    (hexp : r.expiresAt < nowTx)
    (hold : findNotif db r.notificationId = some old)
    (hfresh : ∀ m ∈ db.notifications, m.id ≠ data.id) :
    createNotificationWithIdempotency db apiKeyId key data freshRecordId nowTx ttlHours =
      some { db := { db with
                     notifications := db.notifications ++ [data]
                     idempotencyRecords :=
                       (db.idempotencyRecords.filter fun x => !(x.id == r.id)) ++
                         [{ id := freshRecordId
                            apiKeyId := apiKeyId
                            idempotencyKey := key
                            notificationId := data.id
                            expiresAt := nowTx + ttlHours * 60 * 60 * 1000
                            createdAt := nowTx }] }
             notification := data
             isReplay := false }
      ∧ data.id ≠ old.id := by
  constructor
  · simp only [createNotificationWithIdempotency, hrec, if_neg (not_le.mpr hexp),
      insertWithRecord]
  · have hmem : old ∈ db.notifications := List.mem_of_find?_eq_some hold
    exact fun h => hfresh old hmem h.symm

/-- C9 witness: the expiry-replacement theorem applied to the fixture store
at time `5000`, after the record's expiry `1000`. -/
theorem expired_record_replaced_with_fresh_notification_witness :
    createNotificationWithIdempotency exDb "k1" "key"
      { exN1 with id := "n2", createdAt := 5000, updatedAt := 5000 } "r2" 5000 24 =
      some { db := { notifications :=
                       [exN1, { exN1 with id := "n2", createdAt := 5000, updatedAt := 5000 }]
                     idempotencyRecords :=
                       [{ id := "r2", apiKeyId := "k1", idempotencyKey := "key"
                          notificationId := "n2", expiresAt := 5000 + 24 * 60 * 60 * 1000
                          createdAt := 5000 }]
                     channels := [exCh] }
             notification := { exN1 with id := "n2", createdAt := 5000, updatedAt := 5000 }
             isReplay := false }
      ∧ "n2" ≠ "n1" := by
  have h := expired_record_replaced_with_fresh_notification exDb "k1" "key"
    { exN1 with id := "n2", createdAt := 5000, updatedAt := 5000 } "r2" 5000 24 exRec exN1
    (by decide) (by decide) (by decide) (by decide)
  exact ⟨by rw [h.1]; decide, h.2⟩

/-- The push primitive reports success only for an ok fetch outcome. -/
theorem sendNtfyPush_success_eq_false (topic : String) (timeoutMs : Nat)
    (net : NetOutcome) (hnet : net ≠ NetOutcome.ok) :
    (sendNtfyPush topic timeoutMs net).success = false := by
  cases net with
  | ok => exact absurd rfl hnet
  | httpError status text => rfl
  | abortTimeout => rfl
  | otherError msg => rfl

/-- Every failed push outcome carries an error text. -/
theorem sendNtfyPush_error_isSome (topic : String) (timeoutMs : Nat)
    (net : NetOutcome) (hnet : net ≠ NetOutcome.ok) :
    (sendNtfyPush topic timeoutMs net).error.isSome = true := by
  cases net with
  | ok => exact absurd rfl hnet
  | httpError status text => rfl
  | abortTimeout => rfl
  | otherError msg => rfl

/-- The idempotency transaction's returned notification is stored in its
returned state (replay: the found row; creation: the appended row). -/
theorem createIdem_notification_mem (db : Db) (apiKeyId key : String) (data : Notification)
    (freshRecordId : String) (now ttlHours : Int) (o : IdemOutcome)
    (ho : createNotificationWithIdempotency db apiKeyId key data freshRecordId now ttlHours
        = some o) :
    o.notification ∈ o.db.notifications := by
  unfold createNotificationWithIdempotency at ho
  cases hrec : findIdemRecord db apiKeyId key with
  | some existing =>
      rw [hrec] at ho
      simp only at ho
      by_cases hlive : now ≤ existing.expiresAt
      · rw [if_pos hlive] at ho
        cases hlink : findNotif db existing.notificationId with
        | some m =>
            rw [hlink] at ho
            simp only [Option.some.injEq] at ho
            rw [← ho]
            exact List.mem_of_find?_eq_some hlink
        | none => rw [hlink] at ho; exact absurd ho (by simp)
      · rw [if_neg hlive] at ho
        simp only [insertWithRecord, Option.some.injEq] at ho
        rw [← ho]
        exact List.mem_append_right _ (List.mem_singleton_self _)
  | none =>
      rw [hrec] at ho
      simp only [insertWithRecord, Option.some.injEq] at ho
      rw [← ho]
      exact List.mem_append_right _ (List.mem_singleton_self _)

/-- A non-replay outcome of the idempotency transaction returns exactly the
row it was asked to create. -/
theorem createIdem_notification_eq_of_not_replay (db : Db) (apiKeyId key : String)
    (data : Notification) (freshRecordId : String) (now ttlHours : Int) (o : IdemOutcome)
    (ho : createNotificationWithIdempotency db apiKeyId key data freshRecordId now ttlHours
        = some o)
    (hr : o.isReplay = false) :
    o.notification = data := by
  unfold createNotificationWithIdempotency at ho
  cases hrec : findIdemRecord db apiKeyId key with
  | some existing =>
      rw [hrec] at ho
      simp only at ho
      by_cases hlive : now ≤ existing.expiresAt
      · rw [if_pos hlive] at ho
        cases hlink : findNotif db existing.notificationId with
        | some m =>
            rw [hlink] at ho
            simp only [Option.some.injEq] at ho
            rw [← ho] at hr
            exact absurd hr (by simp)
        | none => rw [hlink] at ho; exact absurd ho (by simp)
      · rw [if_neg hlive] at ho
        simp only [insertWithRecord, Option.some.injEq] at ho
        rw [← ho]
  | none =>
      rw [hrec] at ho
      simp only [insertWithRecord, Option.some.injEq] at ho
      rw [← ho]

/-- The dispatch tail on a failing push: a single push attempt, the stored
row flipped to `FAILED` with the push error text and `deliveredAt` cleared,
and HTTP `201` returned with that row. -/
theorem ingestDispatch_push_failure (db : Db) (n0 : Notification) (input : CreateInput)
    (nowUpd : Int) (net : NetOutcome) (timeoutMs : Nat) (channel : Channel)
    (defaultTopic : String)
    (hn0 : n0 ∈ db.notifications)
    (hskip : input.skipPush = false)
    (hnet : net ≠ NetOutcome.ok) :
    (ingestDispatch db n0 input nowUpd net timeoutMs channel defaultTopic).status = 201
    ∧ (ingestDispatch db n0 input nowUpd net timeoutMs channel defaultTopic).pushAttempted = true
    ∧ (ingestDispatch db n0 input nowUpd net timeoutMs channel defaultTopic).body.id = n0.id
    ∧ (ingestDispatch db n0 input nowUpd net timeoutMs channel defaultTopic).body.deliveryStatus
        = DeliveryStatus.FAILED
    ∧ (ingestDispatch db n0 input nowUpd net timeoutMs channel defaultTopic).body.deliveredAt
        = none
    ∧ (ingestDispatch db n0 input nowUpd net timeoutMs channel defaultTopic).body.deliveryError
        = (sendNtfyPush (getNtfyTopic channel.ntfyTopic defaultTopic) timeoutMs net).error
    ∧ (ingestDispatch db n0 input nowUpd net timeoutMs channel defaultTopic).body
        ∈ (ingestDispatch db n0 input nowUpd net timeoutMs channel defaultTopic).db.notifications := by
  have hsucc := sendNtfyPush_success_eq_false
    (getNtfyTopic channel.ntfyTopic defaultTopic) timeoutMs net hnet
  obtain ⟨e, he⟩ := Option.isSome_iff_exists.mp
    (sendNtfyPush_error_isSome (getNtfyTopic channel.ntfyTopic defaultTopic) timeoutMs net hnet)
  have hdis : ingestDispatch db n0 input nowUpd net timeoutMs channel defaultTopic
      = { db := updateNotif db n0.id
             (applyDispatchResult
               (sendNtfyPush (getNtfyTopic channel.ntfyTopic defaultTopic) timeoutMs net) nowUpd)
          status := 201
          body := applyDispatchResult
            (sendNtfyPush (getNtfyTopic channel.ntfyTopic defaultTopic) timeoutMs net) nowUpd n0
          pushAttempted := true } := by
    simp only [ingestDispatch, hskip, Bool.false_eq_true, if_false]
  rw [hdis]
  refine ⟨rfl, rfl, rfl, ?_, ?_, ?_, ?_⟩
  · simp only [applyDispatchResult, hsucc, Bool.false_eq_true, if_false]
  · simp only [applyDispatchResult, hsucc, Bool.false_eq_true, if_false]
  · simp only [applyDispatchResult, he]
  · have himg := List.mem_map_of_mem
      (fun x => if x.id == n0.id then
        applyDispatchResult
          (sendNtfyPush (getNtfyTopic channel.ntfyTopic defaultTopic) timeoutMs net) nowUpd x
        else x) hn0
    simp only [updateNotif]
    simpa using himg

/-- C3: an ingestion with `skipPush = false` whose push attempt fails (any
non-ok fetch outcome, timeouts included) — whether or not an idempotency
key was supplied — persists the created notification as `FAILED` with the
push result's error text recorded and `deliveredAt` cleared, yet still
returns HTTP `201` with that row as the body: the push failure is absorbed,
never propagated.  The only outcome without a push attempt is a replay
(`200`), which creates nothing; and a timeout is distinguished by the push
result's `isTimeout` flag. -/
theorem push_failure_absorbed_into_failed_status
    (db : Db) (apiKeyId apiKeyName : String) (channel : Channel) (input : CreateInput)
    (freshNotifId freshRecordId : String) (nowTx nowUpd ttlHours : Int)
    (net : NetOutcome) (timeoutMs : Nat) (defaultTopic : String)
    (hskip : input.skipPush = false)
    (hnet : net ≠ NetOutcome.ok) :
    ∀ out, ingestPost db apiKeyId apiKeyName channel input freshNotifId freshRecordId
        nowTx nowUpd ttlHours net timeoutMs defaultTopic = some out →
      (out.pushAttempted = true →
        out.status = 201
        ∧ out.body.id = freshNotifId
        ∧ out.body.deliveryStatus = DeliveryStatus.FAILED
        ∧ out.body.deliveredAt = none
        ∧ out.body.deliveryError
            = (sendNtfyPush (getNtfyTopic channel.ntfyTopic defaultTopic) timeoutMs net).error
        ∧ (sendNtfyPush (getNtfyTopic channel.ntfyTopic defaultTopic) timeoutMs net).error.isSome
            = true
        ∧ out.body ∈ out.db.notifications)
      ∧ (out.pushAttempted = false → out.status = 200)
      ∧ (net = NetOutcome.abortTimeout →
          (sendNtfyPush (getNtfyTopic channel.ntfyTopic defaultTopic) timeoutMs net).isTimeout
            = true) := by
  have herr := sendNtfyPush_error_isSome
    (getNtfyTopic channel.ntfyTopic defaultTopic) timeoutMs net hnet
  have htmo : net = NetOutcome.abortTimeout →
      (sendNtfyPush (getNtfyTopic channel.ntfyTopic defaultTopic) timeoutMs net).isTimeout
        = true := by
    intro h; subst h; rfl
  intro out hout
  unfold ingestPost at hout
  cases hkey : input.idempotencyKey with
  | none =>
      rw [hkey] at hout
      simp only [Option.some.injEq] at hout
      have hd := ingestDispatch_push_failure
        { db with notifications := db.notifications ++
            [notificationData input apiKeyId apiKeyName channel freshNotifId nowTx] }
        (notificationData input apiKeyId apiKeyName channel freshNotifId nowTx)
        input nowUpd net timeoutMs channel defaultTopic
        (List.mem_append_right _ (List.mem_singleton_self _)) hskip hnet
      rw [← hout]
      exact ⟨fun _ => ⟨hd.1, hd.2.2.1, hd.2.2.2.1, hd.2.2.2.2.1, hd.2.2.2.2.2.1, herr,
          hd.2.2.2.2.2.2⟩,
        fun hpa => absurd (hd.2.1.symm.trans hpa) (by decide), htmo⟩
  | some key =>
      rw [hkey] at hout
      simp only at hout
      cases hcreate : createNotificationWithIdempotency db apiKeyId key
          (notificationData input apiKeyId apiKeyName channel freshNotifId nowTx)
          freshRecordId nowTx ttlHours with
      | none => rw [hcreate] at hout; exact absurd hout (by simp)
      | some o =>
          rw [hcreate] at hout
          simp only at hout
          by_cases hr : o.isReplay = true
          · rw [if_pos hr] at hout
            simp only [Option.some.injEq] at hout
            rw [← hout]
            exact ⟨(fun hpa => nomatch hpa), fun _ => rfl, htmo⟩
          · rw [if_neg hr] at hout
            simp only [Option.some.injEq] at hout
            have hrf : o.isReplay = false := by
              revert hr; cases o.isReplay <;> simp
            have hmem := createIdem_notification_mem db apiKeyId key
              (notificationData input apiKeyId apiKeyName channel freshNotifId nowTx)
              freshRecordId nowTx ttlHours o hcreate
            have hne := createIdem_notification_eq_of_not_replay db apiKeyId key
              (notificationData input apiKeyId apiKeyName channel freshNotifId nowTx)
              freshRecordId nowTx ttlHours o hcreate hrf
            have hd := ingestDispatch_push_failure o.db o.notification input nowUpd net
              timeoutMs channel defaultTopic hmem hskip hnet
            rw [← hout]
            refine ⟨fun _ => ⟨hd.1, ?_, hd.2.2.2.1, hd.2.2.2.2.1, hd.2.2.2.2.2.1, herr,
                hd.2.2.2.2.2.2⟩,
              fun hpa => absurd (hd.2.1.symm.trans hpa) (by decide), htmo⟩
            rw [hd.2.2.1, hne]
            rfl

/-- C3 fixture: the concrete outcome of the keyless fixture ingestion whose
push times out. -/
def c3Out : PostResult :=
  (ingestPost exDb "k1" "keyname" exCh { exInput with idempotencyKey := none }
    "n2" "r2" 500 600 24 NetOutcome.abortTimeout 2000 "topic").getD
    { db := exDb, status := 0, body := exN1, pushAttempted := false }

/-- C3 witness: the fixture ingestion with a timed-out push returns `201`
with the created row persisted as `FAILED`, error text recorded and the
timeout flagged. -/
theorem push_failure_absorbed_into_failed_status_witness :
    ingestPost exDb "k1" "keyname" exCh { exInput with idempotencyKey := none }
      "n2" "r2" 500 600 24 NetOutcome.abortTimeout 2000 "topic" = some c3Out
    ∧ c3Out.pushAttempted = true
    ∧ c3Out.status = 201
    ∧ c3Out.body.id = "n2"
    ∧ c3Out.body.deliveryStatus = DeliveryStatus.FAILED
    ∧ c3Out.body.deliveredAt = none
    ∧ c3Out.body.deliveryError
        = (sendNtfyPush (getNtfyTopic exCh.ntfyTopic "topic") 2000 NetOutcome.abortTimeout).error
    ∧ (sendNtfyPush (getNtfyTopic exCh.ntfyTopic "topic") 2000 NetOutcome.abortTimeout).error.isSome
        = true
    ∧ c3Out.body ∈ c3Out.db.notifications
    ∧ (sendNtfyPush (getNtfyTopic exCh.ntfyTopic "topic") 2000 NetOutcome.abortTimeout).isTimeout
        = true := by
  have h := push_failure_absorbed_into_failed_status exDb "k1" "keyname" exCh
    { exInput with idempotencyKey := none } "n2" "r2" 500 600 24
    NetOutcome.abortTimeout 2000 "topic" rfl (by decide) c3Out (by decide)
  obtain ⟨h1, _, h3⟩ := h
  obtain ⟨ha, hb, hc, hd, he, hf, hg⟩ := h1 (by decide)
  exact ⟨by decide, by decide, ha, hb, hc, hd, he, hf, hg, h3 rfl⟩

/-! ### Retry-loop lemmas -/

/-- A candidate inside its backoff window is skipped: the loop step is the
identity on the accumulator. -/
theorem retryStep_skip_eq (net : String → NetOutcome) (timeoutMs : Nat) (now : Int)
    (chTopic : String → Option String) (defaultTopic : String)
    (acc : RetryRun) (c : Notification)
    (hdue : now - c.updatedAt < backoffMs c.retryCount) :
    retryStep net timeoutMs now chTopic defaultTopic acc c = acc := by
  simp [retryStep, hdue]

/-- A due candidate's loop step records exactly one push of its id. -/
theorem retryStep_pushed_of_due (net : String → NetOutcome) (timeoutMs : Nat) (now : Int)
    (chTopic : String → Option String) (defaultTopic : String)
    (acc : RetryRun) (c : Notification)
    (hdue : ¬ now - c.updatedAt < backoffMs c.retryCount) :
    (retryStep net timeoutMs now chTopic defaultTopic acc c).pushed = acc.pushed ++ [c.id] := by
  simp only [retryStep, if_neg hdue]
  split <;> rfl

/-- A loop step either pushes nothing or pushes the candidate's id, and only
when the candidate is due. -/
theorem retryStep_pushed_cases (net : String → NetOutcome) (timeoutMs : Nat) (now : Int)
    (chTopic : String → Option String) (defaultTopic : String)
    (acc : RetryRun) (c : Notification) :
    (retryStep net timeoutMs now chTopic defaultTopic acc c).pushed = acc.pushed
    ∨ ((retryStep net timeoutMs now chTopic defaultTopic acc c).pushed = acc.pushed ++ [c.id]
       ∧ backoffMs c.retryCount ≤ now - c.updatedAt) := by
  by_cases hdue : now - c.updatedAt < backoffMs c.retryCount
  · exact Or.inl (by rw [retryStep_skip_eq _ _ _ _ _ _ _ hdue])
  · exact Or.inr ⟨retryStep_pushed_of_due _ _ _ _ _ _ _ hdue, not_lt.mp hdue⟩

/-- A row whose id no due candidate carries survives a loop step unchanged. -/
theorem retryStep_state_preserve (net : String → NetOutcome) (timeoutMs : Nat) (now : Int)
    (chTopic : String → Option String) (defaultTopic : String)
    (acc : RetryRun) (c : Notification) (x : Notification)
    (hx : x ∈ acc.state)
    (hne : backoffMs c.retryCount ≤ now - c.updatedAt → c.id ≠ x.id) :
    x ∈ (retryStep net timeoutMs now chTopic defaultTopic acc c).state := by
  by_cases hdue : now - c.updatedAt < backoffMs c.retryCount
  · rw [retryStep_skip_eq _ _ _ _ _ _ _ hdue]; exact hx
  · have hne' : c.id ≠ x.id := hne (not_lt.mp hdue)
    have hbeq : (x.id == c.id) = false :=
      beq_eq_false_iff_ne.mpr fun h => hne' h.symm
    simp only [retryStep, if_neg hdue]
    split
    · exact List.mem_map.mpr ⟨x, hx, by simp [hbeq]⟩
    · exact List.mem_map.mpr ⟨x, hx, by simp [hbeq]⟩

/-- A loop step keeps every row satisfying the delivered-iff-Delivered
invariant satisfying it. -/
theorem retryStep_state_consistent (net : String → NetOutcome) (timeoutMs : Nat) (now : Int)
    (chTopic : String → Option String) (defaultTopic : String)
    (acc : RetryRun) (c : Notification)
    (h : ∀ x ∈ acc.state, deliveredIffDelivered x = true) :
    ∀ x ∈ (retryStep net timeoutMs now chTopic defaultTopic acc c).state,
      deliveredIffDelivered x = true := by
  by_cases hdue : now - c.updatedAt < backoffMs c.retryCount
  · rw [retryStep_skip_eq _ _ _ _ _ _ _ hdue]; exact h
  · simp only [retryStep, if_neg hdue]
    split
    · intro x hx
      rcases List.mem_map.mp hx with ⟨z, hz, rfl⟩
      by_cases hb : (z.id == c.id) = true
      · simp [hb, deliveredIffDelivered]
      · simp only [hb, Bool.false_eq_true, if_false]
        exact h z hz
    · intro x hx
      rcases List.mem_map.mp hx with ⟨z, hz, rfl⟩
      by_cases hb : (z.id == c.id) = true
      · have := h z hz
        simp only [hb, if_true, ite_true]
        simpa [deliveredIffDelivered] using this
      · simp only [hb, Bool.false_eq_true, if_false]
        exact h z hz

/-- The retry loop only ever appends to the pushed-id list. -/
theorem foldl_retryStep_pushed_mono (net : String → NetOutcome) (timeoutMs : Nat) (now : Int)
    (chTopic : String → Option String) (defaultTopic : String) :
    ∀ (cs : List Notification) (acc : RetryRun),
      ∃ l, (cs.foldl (retryStep net timeoutMs now chTopic defaultTopic) acc).pushed
        = acc.pushed ++ l := by
  intro cs
  induction cs with
  | nil => exact fun acc => ⟨[], by simp⟩
  | cons c cs ih =>
      intro acc
      rcases ih (retryStep net timeoutMs now chTopic defaultTopic acc c) with ⟨l, hl⟩
      rcases retryStep_pushed_cases net timeoutMs now chTopic defaultTopic acc c with h | ⟨h, _⟩
      · exact ⟨l, by simp only [List.foldl_cons, hl, h]⟩
      · exact ⟨c.id :: l, by simp only [List.foldl_cons, hl, h, List.append_assoc,
          List.singleton_append]⟩

/-- Every id the retry loop pushes belongs to a due candidate. -/
theorem foldl_retryStep_pushed_src (net : String → NetOutcome) (timeoutMs : Nat) (now : Int)
    (chTopic : String → Option String) (defaultTopic : String) :
    ∀ (cs : List Notification) (acc : RetryRun) (nid : String),
      nid ∈ (cs.foldl (retryStep net timeoutMs now chTopic defaultTopic) acc).pushed →
      nid ∈ acc.pushed
      ∨ ∃ c, c ∈ cs ∧ c.id = nid ∧ backoffMs c.retryCount ≤ now - c.updatedAt := by
  intro cs
  induction cs with
  | nil => exact fun acc nid h => Or.inl (by simpa using h)
  | cons c cs ih =>
      intro acc nid h
      rw [List.foldl_cons] at h
      rcases ih (retryStep net timeoutMs now chTopic defaultTopic acc c) nid h with h1 | ⟨c', hc', hid, hdue⟩
      · rcases retryStep_pushed_cases net timeoutMs now chTopic defaultTopic acc c with h2 | ⟨h2, hdue⟩
        · rw [h2] at h1; exact Or.inl h1
        · rw [h2] at h1
          rcases List.mem_append.mp h1 with h3 | h3
          · exact Or.inl h3
          · exact Or.inr ⟨c, List.mem_cons_self _ _, (List.mem_singleton.mp h3).symm, hdue⟩
      · exact Or.inr ⟨c', List.mem_cons_of_mem _ hc', hid, hdue⟩

/-- If the retry loop pushed nothing, it changed nothing. -/
theorem foldl_retryStep_no_push_state (net : String → NetOutcome) (timeoutMs : Nat) (now : Int)
    (chTopic : String → Option String) (defaultTopic : String) :
    ∀ (cs : List Notification) (acc : RetryRun),
      (cs.foldl (retryStep net timeoutMs now chTopic defaultTopic) acc).pushed = acc.pushed →
      (cs.foldl (retryStep net timeoutMs now chTopic defaultTopic) acc).state = acc.state := by
  intro cs
  induction cs with
  | nil => intro acc _; rfl
  | cons c cs ih =>
      intro acc h
      rw [List.foldl_cons] at h ⊢
      by_cases hdue : now - c.updatedAt < backoffMs c.retryCount
      · rw [retryStep_skip_eq _ _ _ _ _ _ _ hdue] at h ⊢
        exact ih acc h
      · exfalso
        rcases foldl_retryStep_pushed_mono net timeoutMs now chTopic defaultTopic cs
          (retryStep net timeoutMs now chTopic defaultTopic acc c) with ⟨l, hl⟩
        rw [hl, retryStep_pushed_of_due _ _ _ _ _ _ _ hdue] at h
        have := congrArg List.length h
        simp at this

/-- A row whose id no due candidate carries survives the whole retry loop. -/
theorem foldl_retryStep_preserve (net : String → NetOutcome) (timeoutMs : Nat) (now : Int)
    (chTopic : String → Option String) (defaultTopic : String) :
    ∀ (cs : List Notification) (acc : RetryRun) (x : Notification),
      x ∈ acc.state →
      (∀ c ∈ cs, backoffMs c.retryCount ≤ now - c.updatedAt → c.id ≠ x.id) →
      x ∈ (cs.foldl (retryStep net timeoutMs now chTopic defaultTopic) acc).state := by
  intro cs
  induction cs with
  | nil => exact fun acc x hx _ => hx
  | cons c cs ih =>
      intro acc x hx hne
      rw [List.foldl_cons]
      exact ih _ x
        (retryStep_state_preserve net timeoutMs now chTopic defaultTopic acc c x hx
          (hne c (List.mem_cons_self _ _)))
        fun c' hc' => hne c' (List.mem_cons_of_mem _ hc')

/-- The retry loop keeps every row satisfying the delivered-iff-Delivered
invariant satisfying it. -/
theorem foldl_retryStep_consistent (net : String → NetOutcome) (timeoutMs : Nat) (now : Int)
    (chTopic : String → Option String) (defaultTopic : String) :
    ∀ (cs : List Notification) (acc : RetryRun),
      (∀ x ∈ acc.state, deliveredIffDelivered x = true) →
      ∀ x ∈ (cs.foldl (retryStep net timeoutMs now chTopic defaultTopic) acc).state,
        deliveredIffDelivered x = true := by
  intro cs
  induction cs with
  | nil => exact fun acc h => h
  | cons c cs ih =>
      intro acc h
      rw [List.foldl_cons]
      exact ih _ (retryStep_state_consistent net timeoutMs now chTopic defaultTopic acc c h)

/-- Membership in the candidate batch implies membership in the state and
eligibility. -/
theorem mem_retryCandidates (state : List Notification) (now : Int) (maxAttempts : Nat)
    (c : Notification) (hc : c ∈ retryCandidates state now maxAttempts) :
    c ∈ state ∧ failedEligible maxAttempts (now - MAX_RETRY_AGE_MS) c = true := by
  unfold retryCandidates at hc
  have h1 := List.mem_of_mem_take hc
  have h2 := (mem_sortBy _ _ _).mp h1
  exact ⟨(List.mem_filter.mp h2).1, (List.mem_filter.mp h2).2⟩

/-- A retry-eligible row never matches the give-up predicate. -/
theorem failedEligible_not_giveUp (maxAttempts : Nat) (cutoff : Int) (n : Notification)
    (h : failedEligible maxAttempts cutoff n = true) :
    giveUpMatches maxAttempts cutoff n = false := by
  simp only [failedEligible, Bool.and_eq_true, beq_iff_eq, decide_eq_true_eq] at h
  obtain ⟨⟨hstat, hrc⟩, hcr⟩ := h
  have h1 : ¬ maxAttempts ≤ n.retryCount := by omega
  have h2 : ¬ n.createdAt < cutoff := by omega
  simp [giveUpMatches, h1, h2]

/-- An unmatched row passes through the give-up marking unchanged. -/
theorem markGiveUps_mem_of_not (state : List Notification) (now : Int) (maxAttempts : Nat)
    (n : Notification) (hn : n ∈ state)
    (h : giveUpMatches maxAttempts (now - MAX_RETRY_AGE_MS) n = false) :
    n ∈ (markGiveUps state now maxAttempts).1 :=
  List.mem_map.mpr ⟨n, hn, by simp [h]⟩

/-- A matched row appears marked with the terminal error after the give-up
marking. -/
theorem markGiveUps_mem_marked (state : List Notification) (now : Int) (maxAttempts : Nat)
    (n : Notification) (hn : n ∈ state)
    (h : giveUpMatches maxAttempts (now - MAX_RETRY_AGE_MS) n = true) :
    { n with deliveryError := some terminalRetryError, updatedAt := now }
      ∈ (markGiveUps state now maxAttempts).1 :=
  List.mem_map.mpr ⟨n, hn, by simp [h]⟩

/-- Filtering by a predicate invariant under a map has the same number of
matches before and after. -/
theorem filter_length_map_invariant (f : α → α) (p : α → Bool)
    (hp : ∀ x, p (f x) = p x) (l : List α) :
    ((l.map f).filter p).length = (l.filter p).length := by
  induction l with
  | nil => rfl
  | cons a l ih =>
      simp only [List.map_cons, List.filter_cons, hp a]
      by_cases h : p a = true
      · simp [h, ih]
      · simp [h, ih]

/-- The give-up marking does not change whether a row matches the give-up
predicate. -/
theorem giveUpMatches_after_mark (maxAttempts : Nat) (cutoff now : Int) (n : Notification) :
    giveUpMatches maxAttempts cutoff
      (if giveUpMatches maxAttempts (now - MAX_RETRY_AGE_MS) n then
        { n with deliveryError := some terminalRetryError, updatedAt := now }
      else n)
      = giveUpMatches maxAttempts cutoff n := by
  by_cases h : giveUpMatches maxAttempts (now - MAX_RETRY_AGE_MS) n = true
  · rw [if_pos h]; rfl
  · rw [if_neg h]

/-- Unfolding lemma: the run's pushed ids come from the candidate loop. -/
theorem runRetryCron_pushed (state : List Notification) (now : Int) (maxAttempts : Nat)
    (net : String → NetOutcome) (timeoutMs : Nat) (chTopic : String → Option String)
    (defaultTopic : String) :
    (runRetryCron state now maxAttempts net timeoutMs chTopic defaultTopic).pushed =
      ((retryCandidates state now maxAttempts).foldl
        (retryStep net timeoutMs now chTopic defaultTopic)
        { state := (markGiveUps state now maxAttempts).1
          attempted := 0, succeeded := 0, failed := 0, pushed := [] }).pushed := rfl

/-- Unfolding lemma: the run's final state comes from the candidate loop over
the marked state. -/
theorem runRetryCron_state (state : List Notification) (now : Int) (maxAttempts : Nat)
    (net : String → NetOutcome) (timeoutMs : Nat) (chTopic : String → Option String)
    (defaultTopic : String) :
    (runRetryCron state now maxAttempts net timeoutMs chTopic defaultTopic).state =
      ((retryCandidates state now maxAttempts).foldl
        (retryStep net timeoutMs now chTopic defaultTopic)
        { state := (markGiveUps state now maxAttempts).1
          attempted := 0, succeeded := 0, failed := 0, pushed := [] }).state := rfl

/-- Unfolding lemma: the run's `gaveUp` counter is the give-up match count
over the incoming state. -/
theorem runRetryCron_gaveUp (state : List Notification) (now : Int) (maxAttempts : Nat)
    (net : String → NetOutcome) (timeoutMs : Nat) (chTopic : String → Option String)
    (defaultTopic : String) :
    (runRetryCron state now maxAttempts net timeoutMs chTopic defaultTopic).result.gaveUp =
      (state.filter (giveUpMatches maxAttempts (now - MAX_RETRY_AGE_MS))).length := rfl

/-- C6: in a retry run, a selected candidate with retry count `r` has its
push primitive invoked only when at least `2^r` minutes have elapsed since
its last update; a candidate still inside its backoff window is not pushed
and its row survives the run byte-for-byte unchanged; in particular a
candidate with `retryCount = 3` is untouched before 8 minutes have elapsed. -/
theorem retry_backoff_gate_skips_not_due
    (state : List Notification) (now : Int) (maxAttempts : Nat)
    (net : String → NetOutcome) (timeoutMs : Nat) (chTopic : String → Option String)
    (defaultTopic : String) (c : Notification)
    (hids : (state.map Notification.id).Nodup)
    (hc : c ∈ retryCandidates state now maxAttempts) :
    (c.id ∈ (runRetryCron state now maxAttempts net timeoutMs chTopic defaultTopic).pushed →
      backoffMs c.retryCount ≤ now - c.updatedAt)
    ∧ (now - c.updatedAt < backoffMs c.retryCount →
        c.id ∉ (runRetryCron state now maxAttempts net timeoutMs chTopic defaultTopic).pushed
        ∧ c ∈ (runRetryCron state now maxAttempts net timeoutMs chTopic defaultTopic).state)
    ∧ (c.retryCount = 3 → now - c.updatedAt < 480000 →
        c.id ∉ (runRetryCron state now maxAttempts net timeoutMs chTopic defaultTopic).pushed) := by
  obtain ⟨hcs, hel⟩ := mem_retryCandidates state now maxAttempts c hc
  have hinj := List.inj_on_of_nodup_map hids
  have hA : c.id ∈ (runRetryCron state now maxAttempts net timeoutMs chTopic defaultTopic).pushed →
      backoffMs c.retryCount ≤ now - c.updatedAt := by
    intro hp
    rw [runRetryCron_pushed] at hp
    rcases foldl_retryStep_pushed_src net timeoutMs now chTopic defaultTopic _ _ _ hp with
      h0 | ⟨c', hc', hid, hdue⟩
    · simp at h0
    · obtain ⟨hcs', _⟩ := mem_retryCandidates state now maxAttempts c' hc'
      have : c' = c := hinj hcs' hcs hid
      rw [← this]
      exact hdue
  have hB : now - c.updatedAt < backoffMs c.retryCount →
      c.id ∉ (runRetryCron state now maxAttempts net timeoutMs chTopic defaultTopic).pushed
      ∧ c ∈ (runRetryCron state now maxAttempts net timeoutMs chTopic defaultTopic).state := by
    intro hdue
    refine ⟨fun hp => absurd (hA hp) (not_le.mpr hdue), ?_⟩
    rw [runRetryCron_state]
    apply foldl_retryStep_preserve
    · exact markGiveUps_mem_of_not state now maxAttempts c hcs
        (failedEligible_not_giveUp maxAttempts _ c hel)
    · intro c' hc' hdue' hid
      obtain ⟨hcs', _⟩ := mem_retryCandidates state now maxAttempts c' hc'
      have : c' = c := hinj hcs' hcs hid
      subst this
      exact absurd hdue' (not_le.mpr hdue)
  refine ⟨hA, hB, ?_⟩
  intro h3 hlt
  have : now - c.updatedAt < backoffMs c.retryCount := by
    rw [h3]
    exact lt_of_lt_of_le hlt (by norm_num [backoffMs])
  exact (hB this).1

/-- C6 fixture: failed candidate with `retryCount = 3` updated `1000` ms
before the run at `1000000`, inside its 480000 ms backoff window. -/
def exNotDue : Notification :=
  { id := "nd", title := "t", message := "m", markdown := false, source := "s"
    channelId := "c1", category := none, tags := [], priority := 3, clickUrl := none
    metadata := none, deliveryStatus := DeliveryStatus.FAILED, deliveredAt := none
    deliveryError := none, retryCount := 3, readAt := none, apiKeyId := "k1"
    createdAt := 999000, updatedAt := 999000 }

/-- C6 witness: at time `1000000` the not-yet-due fixture candidate is
neither pushed nor modified by the run. -/
theorem retry_backoff_gate_skips_not_due_witness :
    (exNotDue.id ∈ (runRetryCron [exNotDue] 1000000 5 (fun _ => NetOutcome.ok) 2000
        (fun _ => none) "topic").pushed →
      backoffMs exNotDue.retryCount ≤ 1000000 - exNotDue.updatedAt)
    ∧ ((1000000 : Int) - exNotDue.updatedAt < backoffMs exNotDue.retryCount →
        exNotDue.id ∉ (runRetryCron [exNotDue] 1000000 5 (fun _ => NetOutcome.ok) 2000
          (fun _ => none) "topic").pushed
        ∧ exNotDue ∈ (runRetryCron [exNotDue] 1000000 5 (fun _ => NetOutcome.ok) 2000
            (fun _ => none) "topic").state)
    ∧ (exNotDue.retryCount = 3 → (1000000 : Int) - exNotDue.updatedAt < 480000 →
        exNotDue.id ∉ (runRetryCron [exNotDue] 1000000 5 (fun _ => NetOutcome.ok) 2000
          (fun _ => none) "topic").pushed) :=
  retry_backoff_gate_skips_not_due [exNotDue] 1000000 5 (fun _ => NetOutcome.ok) 2000
    (fun _ => none) "topic" exNotDue (by decide) (by decide)

/-- C7: every failed notification with retries exhausted or older than the
24-hour cutoff is re-written by the run with the terminal explanatory
delivery error while its status stays `FAILED`, and no such notification is
in the run's retry candidate selection. -/
theorem give_up_marks_terminal_and_excludes
    (state : List Notification) (now : Int) (maxAttempts : Nat)
    (net : String → NetOutcome) (timeoutMs : Nat) (chTopic : String → Option String)
    (defaultTopic : String) (n : Notification)
    (hids : (state.map Notification.id).Nodup)
    (hn : n ∈ state)
    (hmatch : giveUpMatches maxAttempts (now - MAX_RETRY_AGE_MS) n = true) :
    { n with deliveryError := some terminalRetryError, updatedAt := now }
      ∈ (runRetryCron state now maxAttempts net timeoutMs chTopic defaultTopic).state
    ∧ ({ n with deliveryError := some terminalRetryError, updatedAt := now
         } : Notification).deliveryStatus = DeliveryStatus.FAILED
    ∧ ({ n with deliveryError := some terminalRetryError, updatedAt := now
         } : Notification).deliveryError = some terminalRetryError
    ∧ n ∉ retryCandidates state now maxAttempts := by
  have hinj := List.inj_on_of_nodup_map hids
  have hstat : n.deliveryStatus = DeliveryStatus.FAILED := by
    have := hmatch
    simp only [giveUpMatches, Bool.and_eq_true, beq_iff_eq] at this
    exact this.1
  refine ⟨?_, hstat, rfl, ?_⟩
  · rw [runRetryCron_state]
    apply foldl_retryStep_preserve
    · exact markGiveUps_mem_marked state now maxAttempts n hn hmatch
    · intro c' hc' _ hid
      obtain ⟨hcs', hel'⟩ := mem_retryCandidates state now maxAttempts c' hc'
      have hcn : c' = n := hinj hcs' hn hid
      subst hcn
      rw [failedEligible_not_giveUp maxAttempts _ c' hel'] at hmatch
      exact Bool.false_ne_true hmatch
  · intro hc
    obtain ⟨_, hel⟩ := mem_retryCandidates state now maxAttempts n hc
    rw [failedEligible_not_giveUp maxAttempts _ n hel] at hmatch
    exact Bool.false_ne_true hmatch

/-- C7 fixture: failed notification created at `0`, far older than the
24-hour cutoff of a run at `200000000`. -/
def exOldFailed : Notification :=
  { id := "nf", title := "t", message := "m", markdown := false, source := "s"
    channelId := "c1", category := none, tags := [], priority := 3, clickUrl := none
    metadata := none, deliveryStatus := DeliveryStatus.FAILED, deliveredAt := none
    deliveryError := none, retryCount := 0, readAt := none, apiKeyId := "k1"
    createdAt := 0, updatedAt := 0 }

/-- C7 witness: the over-age fixture row is marked terminal, stays `FAILED`
and is not a retry candidate of the run at `200000000`. -/
theorem give_up_marks_terminal_and_excludes_witness :
    { exOldFailed with deliveryError := some terminalRetryError, updatedAt := 200000000 }
      ∈ (runRetryCron [exOldFailed] 200000000 5 (fun _ => NetOutcome.ok) 2000
          (fun _ => none) "topic").state
    ∧ ({ exOldFailed with deliveryError := some terminalRetryError, updatedAt := 200000000
         } : Notification).deliveryStatus = DeliveryStatus.FAILED
    ∧ ({ exOldFailed with deliveryError := some terminalRetryError, updatedAt := 200000000
         } : Notification).deliveryError = some terminalRetryError
    ∧ exOldFailed ∉ retryCandidates [exOldFailed] 200000000 5 :=
  give_up_marks_terminal_and_excludes [exOldFailed] 200000000 5 (fun _ => NetOutcome.ok)
    2000 (fun _ => none) "topic" exOldFailed (by decide) (by decide) (by decide)

/-- C10: a run's `gaveUp` counter equals the number of all failed rows that
match the give-up condition at run time — including rows marked terminal by
an earlier run — so it is nonzero whenever such rows exist, and a second
run at the same instant on the first run's output (the first run having
attempted no pushes) re-marks the same rows and reports the same count. -/
theorem gave_up_count_counts_all_matching_rows
    (state : List Notification) (now : Int) (maxAttempts : Nat)
    (net : String → NetOutcome) (timeoutMs : Nat) (chTopic : String → Option String)
    (defaultTopic : String) :
    (runRetryCron state now maxAttempts net timeoutMs chTopic defaultTopic).result.gaveUp
      = (state.filter (giveUpMatches maxAttempts (now - MAX_RETRY_AGE_MS))).length
    ∧ (state.filter (giveUpMatches maxAttempts (now - MAX_RETRY_AGE_MS)) ≠ [] →
        (runRetryCron state now maxAttempts net timeoutMs chTopic defaultTopic).result.gaveUp ≠ 0)
    ∧ ((runRetryCron state now maxAttempts net timeoutMs chTopic defaultTopic).pushed = [] →
        (runRetryCron
          (runRetryCron state now maxAttempts net timeoutMs chTopic defaultTopic).state
          now maxAttempts net timeoutMs chTopic defaultTopic).result.gaveUp
          = (runRetryCron state now maxAttempts net timeoutMs chTopic defaultTopic).result.gaveUp) := by
  refine ⟨runRetryCron_gaveUp state now maxAttempts net timeoutMs chTopic defaultTopic, ?_, ?_⟩
  · intro hne h0
    rw [runRetryCron_gaveUp] at h0
    exact hne (List.length_eq_zero.mp h0)
  · intro hp
    rw [runRetryCron_pushed] at hp
    have hstate : (runRetryCron state now maxAttempts net timeoutMs chTopic defaultTopic).state
        = (markGiveUps state now maxAttempts).1 := by
      rw [runRetryCron_state]
      exact foldl_retryStep_no_push_state net timeoutMs now chTopic defaultTopic _ _ hp
    rw [hstate, runRetryCron_gaveUp, runRetryCron_gaveUp]
    show (((markGiveUps state now maxAttempts).1).filter
        (giveUpMatches maxAttempts (now - MAX_RETRY_AGE_MS))).length
      = (state.filter (giveUpMatches maxAttempts (now - MAX_RETRY_AGE_MS))).length
    unfold markGiveUps
    exact filter_length_map_invariant _ _
      (giveUpMatches_after_mark maxAttempts (now - MAX_RETRY_AGE_MS) now) state

/-- C10 witness: one over-age failed row gives `gaveUp = 1 ≠ 0`, and the
second run at the same instant reports the same count. -/
theorem gave_up_count_counts_all_matching_rows_witness :
    (runRetryCron [exOldFailed] 200000000 5 (fun _ => NetOutcome.ok) 2000
        (fun _ => none) "topic").result.gaveUp
      = ([exOldFailed].filter (giveUpMatches 5 ((200000000 : Int) - MAX_RETRY_AGE_MS))).length
    ∧ (runRetryCron [exOldFailed] 200000000 5 (fun _ => NetOutcome.ok) 2000
        (fun _ => none) "topic").result.gaveUp ≠ 0
    ∧ (runRetryCron
        (runRetryCron [exOldFailed] 200000000 5 (fun _ => NetOutcome.ok) 2000
          (fun _ => none) "topic").state
        200000000 5 (fun _ => NetOutcome.ok) 2000 (fun _ => none) "topic").result.gaveUp
      = (runRetryCron [exOldFailed] 200000000 5 (fun _ => NetOutcome.ok) 2000
          (fun _ => none) "topic").result.gaveUp :=
  ⟨(gave_up_count_counts_all_matching_rows [exOldFailed] 200000000 5 (fun _ => NetOutcome.ok)
      2000 (fun _ => none) "topic").1,
   (gave_up_count_counts_all_matching_rows [exOldFailed] 200000000 5 (fun _ => NetOutcome.ok)
      2000 (fun _ => none) "topic").2.1 (by decide),
   (gave_up_count_counts_all_matching_rows [exOldFailed] 200000000 5 (fun _ => NetOutcome.ok)
      2000 (fun _ => none) "topic").2.2 (by decide)⟩

/-- A freshly created row satisfies the delivered-iff-Delivered invariant. -/
theorem notificationData_consistent (input : CreateInput) (apiKeyId apiKeyName : String)
    (channel : Channel) (freshId : String) (now : Int) :
    deliveredIffDelivered (notificationData input apiKeyId apiKeyName channel freshId now)
      = true := by
  cases h : input.skipPush <;> simp [notificationData, deliveredIffDelivered, h]

/-- The dispatch-outcome update establishes the invariant on any row. -/
theorem applyDispatchResult_consistent (res : NtfyResult) (now : Int) (n : Notification) :
    deliveredIffDelivered (applyDispatchResult res now n) = true := by
  cases h : res.success <;> simp [applyDispatchResult, deliveredIffDelivered, h]

/-- The idempotency transaction preserves the invariant across the store
when the created row satisfies it. -/
theorem createIdem_consistent (db : Db) (apiKeyId key : String) (data : Notification)
    (freshRecordId : String) (now ttlHours : Int) (o : IdemOutcome)
    (h : ∀ x ∈ db.notifications, deliveredIffDelivered x = true)
    (hdata : deliveredIffDelivered data = true)
    (ho : createNotificationWithIdempotency db apiKeyId key data freshRecordId now ttlHours
        = some o) :
    ∀ x ∈ o.db.notifications, deliveredIffDelivered x = true := by
  unfold createNotificationWithIdempotency at ho
  cases hrec : findIdemRecord db apiKeyId key with
  | some existing =>
      rw [hrec] at ho
      simp only at ho
      by_cases hlive : now ≤ existing.expiresAt
      · rw [if_pos hlive] at ho
        cases hlink : findNotif db existing.notificationId with
        | some m =>
            rw [hlink] at ho
            simp only [Option.some.injEq] at ho
            rw [← ho]
            exact h
        | none => rw [hlink] at ho; exact absurd ho (by simp)
      · rw [if_neg hlive] at ho
        simp only [insertWithRecord, Option.some.injEq] at ho
        rw [← ho]
        intro x hx
        rcases List.mem_append.mp hx with hx | hx
        · exact h x hx
        · rw [List.mem_singleton.mp hx]; exact hdata
  | none =>
      rw [hrec] at ho
      simp only [insertWithRecord, Option.some.injEq] at ho
      rw [← ho]
      intro x hx
      rcases List.mem_append.mp hx with hx | hx
      · exact h x hx
      · rw [List.mem_singleton.mp hx]; exact hdata

/-- The dispatch tail of the POST handler preserves the invariant across the
store. -/
theorem ingestDispatch_consistent (db : Db) (n0 : Notification) (input : CreateInput)
    (nowUpd : Int) (net : NetOutcome) (timeoutMs : Nat) (channel : Channel)
    (defaultTopic : String)
    (h : ∀ x ∈ db.notifications, deliveredIffDelivered x = true) :
    ∀ x ∈ (ingestDispatch db n0 input nowUpd net timeoutMs channel defaultTopic).db.notifications,
      deliveredIffDelivered x = true := by
  unfold ingestDispatch
  split
  · exact h
  · intro x hx
    simp only [updateNotif] at hx
    rcases List.mem_map.mp hx with ⟨z, hz, rfl⟩
    by_cases hb : (z.id == n0.id) = true
    · simp only [hb, if_true, ite_true]
      exact applyDispatchResult_consistent _ _ _
    · simp only [hb, Bool.false_eq_true, if_false]
      exact h z hz

/-- The give-up marking preserves the invariant across the state. -/
theorem markGiveUps_consistent (state : List Notification) (now : Int) (maxAttempts : Nat)
    (h : ∀ x ∈ state, deliveredIffDelivered x = true) :
    ∀ x ∈ (markGiveUps state now maxAttempts).1, deliveredIffDelivered x = true := by
  intro x hx
  simp only [markGiveUps] at hx
  rcases List.mem_map.mp hx with ⟨z, hz, rfl⟩
  by_cases hg : giveUpMatches maxAttempts (now - MAX_RETRY_AGE_MS) z = true
  · rw [if_pos hg]
    have := h z hz
    simpa [deliveredIffDelivered] using this
  · rw [if_neg hg]
    exact h z hz

/-- C8: if every stored row satisfies `deliveredAt` set iff status
`DELIVERED`, then after a full ingestion (creation, idempotent or not, plus
the initial dispatch update) and after a retry run (give-up marking, retry
success and retry failure updates) every stored row still satisfies it. -/
theorem delivered_at_iff_delivered_invariant
    (db : Db) (apiKeyId apiKeyName : String) (channel : Channel) (input : CreateInput)
    (freshNotifId freshRecordId : String) (nowTx nowUpd ttlHours : Int)
    (net : NetOutcome) (timeoutMs : Nat) (defaultTopic : String)
    (nowR : Int) (maxAttempts : Nat) (netR : String → NetOutcome) (timeoutR : Nat)
    (chTopic : String → Option String) (defaultTopicR : String)
    (h : ∀ n ∈ db.notifications, deliveredIffDelivered n = true) :
    (∀ out, ingestPost db apiKeyId apiKeyName channel input freshNotifId freshRecordId
        nowTx nowUpd ttlHours net timeoutMs defaultTopic = some out →
      ∀ n ∈ out.db.notifications, deliveredIffDelivered n = true)
    ∧ (∀ n ∈ (runRetryCron db.notifications nowR maxAttempts netR timeoutR chTopic
        defaultTopicR).state, deliveredIffDelivered n = true) := by
  constructor
  · intro out hout
    unfold ingestPost at hout
    cases hkey : input.idempotencyKey with
    | some key =>
        rw [hkey] at hout
        simp only at hout
        cases hcreate : createNotificationWithIdempotency db apiKeyId key
            (notificationData input apiKeyId apiKeyName channel freshNotifId nowTx)
            freshRecordId nowTx ttlHours with
        | none => rw [hcreate] at hout; exact absurd hout (by simp)
        | some o =>
            rw [hcreate] at hout
            simp only at hout
            have hco : ∀ x ∈ o.db.notifications, deliveredIffDelivered x = true :=
              createIdem_consistent db apiKeyId key _ freshRecordId nowTx ttlHours o h
                (notificationData_consistent input apiKeyId apiKeyName channel freshNotifId nowTx)
                hcreate
            by_cases hr : o.isReplay = true
            · rw [if_pos hr] at hout
              simp only [Option.some.injEq] at hout
              rw [← hout]
              exact hco
            · rw [if_neg hr] at hout
              simp only [Option.some.injEq] at hout
              rw [← hout]
              exact ingestDispatch_consistent o.db o.notification input nowUpd net timeoutMs
                channel defaultTopic hco
    | none =>
        rw [hkey] at hout
        simp only [Option.some.injEq] at hout
        rw [← hout]
        apply ingestDispatch_consistent
        intro x hx
        rcases List.mem_append.mp hx with hx | hx
        · exact h x hx
        · rw [List.mem_singleton.mp hx]
          exact notificationData_consistent input apiKeyId apiKeyName channel freshNotifId nowTx
  · rw [runRetryCron_state]
    apply foldl_retryStep_consistent
    exact markGiveUps_consistent db.notifications nowR maxAttempts h

/-- C8 witness: the invariant theorem applied to the fixture store; its row
still satisfies the invariant after a retry run. -/
theorem delivered_at_iff_delivered_invariant_witness :
    deliveredIffDelivered exN1 = true :=
  (delivered_at_iff_delivered_invariant exDb "k1" "keyname" exCh exInput "n2" "r2"
    500 600 24 NetOutcome.ok 2000 "topic" 200000000 5 (fun _ => NetOutcome.ok) 2000
    (fun _ => none) "topic" (by decide)).2 exN1 (by decide)

/-- The stream ordering is total. -/
theorem streamOrder_total (a b : Notification) : streamOrder a b || streamOrder b a := by
  unfold streamOrder
  rcases lt_trichotomy a.createdAt b.createdAt with h | h | h
  · simp [h]
  · rcases Bool.or_eq_true _ _ |>.mp (strLe_total a.id b.id) with h2 | h2 <;> simp [h, h2]
  · simp [h]

/-- The stream ordering is transitive. -/
theorem streamOrder_trans (a b c : Notification) (h1 : streamOrder a b = true)
    (h2 : streamOrder b c = true) : streamOrder a c = true := by
  simp only [streamOrder, Bool.or_eq_true, Bool.and_eq_true, decide_eq_true_eq] at h1 h2 ⊢
  rcases h1 with h1 | ⟨h1e, h1l⟩ <;> rcases h2 with h2 | ⟨h2e, h2l⟩
  · exact Or.inl (by omega)
  · exact Or.inl (by omega)
  · exact Or.inl (by omega)
  · exact Or.inr ⟨by omega, strLe_trans _ _ _ h1l h2l⟩

/-- C5: every poll or resume query returns only stored rows matching the
connection filters and strictly after the compound cursor, in ascending
`(createdAt, id)` order, capped at 100; when at most 100 rows match, every
matching row is returned; and no returned row is at or before the cursor. -/
theorem stream_fetch_exactly_after_cursor
    (state : List Notification) (afterTs : Int) (afterId : String)
    (channelId : Option String) (minPriority : Option Nat) :
    (∀ n ∈ fetchNewNotifications state afterTs afterId channelId minPriority,
        n ∈ state ∧ streamMatches afterTs afterId channelId minPriority n = true)
    ∧ (fetchNewNotifications state afterTs afterId channelId minPriority).length ≤ 100
    ∧ (fetchNewNotifications state afterTs afterId channelId minPriority).Pairwise
        (fun a b => streamOrder a b = true)
    ∧ (∀ n ∈ state, streamMatches afterTs afterId channelId minPriority n = true →
        (state.filter (streamMatches afterTs afterId channelId minPriority)).length ≤ 100 →
        n ∈ fetchNewNotifications state afterTs afterId channelId minPriority)
    ∧ (∀ n ∈ fetchNewNotifications state afterTs afterId channelId minPriority,
        ¬(n.createdAt < afterTs
          ∨ (n.createdAt = afterTs ∧ (n.id = afterId ∨ strLt n.id afterId = true)))) := by
  have hmem : ∀ n ∈ fetchNewNotifications state afterTs afterId channelId minPriority,
      n ∈ state ∧ streamMatches afterTs afterId channelId minPriority n = true := by
    intro n hn
    have h1 := List.mem_of_mem_take hn
    have h2 := (mem_sortBy _ _ _).mp h1
    exact ⟨(List.mem_filter.mp h2).1, (List.mem_filter.mp h2).2⟩
  refine ⟨hmem, ?_, ?_, ?_, ?_⟩
  · exact List.length_take_le _ _
  · exact List.Pairwise.sublist (List.take_sublist _ _)
      (pairwise_sortBy streamOrder streamOrder_total streamOrder_trans _)
  · intro n hn hm hlen
    unfold fetchNewNotifications
    rw [List.take_of_length_le (by rw [length_sortBy]; simpa [FETCH_BATCH_LIMIT] using hlen)]
    exact (mem_sortBy _ _ _).mpr (List.mem_filter.mpr ⟨hn, hm⟩)
  · intro n hn hbad
    have hm := (hmem n hn).2
    simp only [streamMatches, Bool.and_eq_true] at hm
    have hcur := hm.1.1
    simp only [cursorMatches, Bool.or_eq_true, Bool.and_eq_true, decide_eq_true_eq] at hcur
    rcases hcur with hcur | ⟨hceq, hclt⟩
    · rcases hbad with hbad | ⟨hbe, _⟩
      · omega
      · omega
    · rcases hbad with hbad | ⟨_, hbid⟩
      · omega
      · rcases hbid with hbid | hbid
        · rw [hbid] at hclt
          rw [strLt_irrefl] at hclt
          exact Bool.false_ne_true hclt
        · rw [strLt_asymm n.id afterId hbid] at hclt
          exact Bool.false_ne_true hclt

/-- C5 witness: on a two-row store with cursor `(0, "")` both rows are
matched, returned in order, and the completeness clause applies to the
fixture row. -/
theorem stream_fetch_exactly_after_cursor_witness :
    exN1 ∈ fetchNewNotifications [exOldFailed, exN1] 0 "" none none :=
  (stream_fetch_exactly_after_cursor [exOldFailed, exN1] 0 "" none none).2.2.2.1
    exN1 (by decide) (by decide) (by decide)

/-- C4 fixture: a list query carrying `since = 5` together with a cursor
positioned at time `0`, earlier than `since`. -/
def c4Raw : RawListQuery :=
  { page := none, limit := none, since := some 5, channel := none
    source := none, category := none, minPriority := none, tags := none
    deliveryStatus := none, unreadOnly := none, sort := none, order := none
    cursor := some (0, "cc") }

/-- C4 counterexample: the claim asserts a list query whose cursor position
is earlier than `since` returns an empty page; on the code the list schema
has no `cursor` key at all, so the query returns the `since`-filtered page
— here the fixture row — which is not empty. -/
theorem list_cursor_before_since_not_empty_cex :
    c4Raw.since = some 5
    ∧ c4Raw.cursor = some (0, "cc")
    ∧ (0 : Int) < 5
    ∧ listNotificationsGet exDb c4Raw = some [exN1]
    ∧ some [exN1] ≠ some ([] : List Notification) := by decide

/-- Every row of a list query page passes the query's `where` clause. -/
theorem mem_runListQuery_listWhere (db : Db) (q : ListQuery) (channelId : Option String)
    (n : Notification) (hn : n ∈ runListQuery db q channelId) :
    listWhere q channelId n = true := by
  unfold runListQuery at hn
  have h1 := List.mem_of_mem_take hn
  have h2 := List.mem_of_mem_drop h1
  have h3 := (mem_sortBy _ _ _).mp h2
  exact (List.mem_filter.mp h3).2

/-- The `since` conjunct of the `where` clause bounds `createdAt`. -/
theorem listWhere_since (q : ListQuery) (channelId : Option String) (n : Notification)
    (s : Int) (hq : q.since = some s) (hw : listWhere q channelId n = true) :
    s < n.createdAt := by
  simp only [listWhere, Bool.and_eq_true] at hw
  have hlast := hw.2
  rw [hq] at hlast
  simpa using hlast

/-- C4 amended: the list endpoint's schema declares no `cursor` parameter,
so a supplied cursor is stripped by validation and the query behaves
exactly as if no cursor were supplied; `since` still acts as a strict
filter floor on every returned row. -/
theorem list_cursor_param_ignored
    (db : Db) (raw : RawListQuery) (c : Option (Int × String)) :
    listNotificationsGet db { raw with cursor := c } = listNotificationsGet db raw
    ∧ (∀ res, listNotificationsGet db raw = some res →
        ∀ n ∈ res, ∀ s, raw.since = some s → s < n.createdAt) := by
  constructor
  · rfl
  · intro res hres n hn s hs
    have hqs : (parseListQuery raw).since = some s := hs
    simp only [listNotificationsGet] at hres
    cases hch : (parseListQuery raw).channel with
    | none =>
        rw [hch] at hres
        simp only [Option.some.injEq] at hres
        rw [← hres] at hn
        exact listWhere_since _ _ _ _ hqs (mem_runListQuery_listWhere db _ none n hn)
    | some name =>
        rw [hch] at hres
        simp only at hres
        cases hfind : db.channels.find? (fun ch => ch.name == name) with
        | none => rw [hfind] at hres; exact absurd hres (by simp)
        | some ch =>
            rw [hfind] at hres
            simp only [Option.some.injEq] at hres
            rw [← hres] at hn
            exact listWhere_since _ _ _ _ hqs
              (mem_runListQuery_listWhere db _ (some ch.id) n hn)

/-- C4 amended witness: on the fixture store, adding an arbitrary cursor to
the query changes nothing, and the returned fixture row is after `since`. -/
theorem list_cursor_param_ignored_witness :
    listNotificationsGet exDb { c4Raw with cursor := some (7, "zz") }
      = listNotificationsGet exDb c4Raw
    ∧ (5 : Int) < exN1.createdAt :=
  ⟨(list_cursor_param_ignored exDb c4Raw (some (7, "zz"))).1,
   (list_cursor_param_ignored exDb c4Raw (some (7, "zz"))).2 [exN1] (by decide)
     exN1 (by decide) 5 (by decide)⟩
